import Mathlib

/-!
Verification of the BookHaven catalog application (React/TypeScript, Supabase
backend) against its natural-language specification.

The embedding is shallow: the data-transformation logic of the repository is
translated into executable Lean definitions.  JavaScript strings are embedded
as `List Char` (Lean's builtin `String` operations such as `toLower` and
`trim` do not reduce in the kernel); JavaScript numbers that carry rating
averages are embedded as `ℚ` (exact arithmetic stands in for IEEE doubles,
whose rounding is out of scope); database rows are structures; handlers
become pure functions from their inputs to an outcome, the list of mutating
store calls they issue, and the successor component state.
-/

/-! ## String helpers (embedding JavaScript string primitives) -/

/-- Embeds JavaScript `String.prototype.toLowerCase` (ASCII range, which is
all the comparisons in the source exercise). -/
def jsToLower (s : List Char) : List Char := s.map Char.toLower

/-- Embeds JavaScript `String.prototype.includes`: substring containment. -/
def jsIncludes (s sub : List Char) : Bool := decide (sub <:+: s)

/-- Embeds JavaScript `String.prototype.trim` (and the `zod` `.trim()`
transform): strip leading and trailing whitespace. -/
def jsTrim (s : List Char) : List Char :=
  ((s.dropWhile Char.isWhitespace).reverse.dropWhile Char.isWhitespace).reverse

/-- Lexicographic order on character lists.  This embeds
`String.prototype.localeCompare` as the standard code-point order (the
locale-specific collation table is external to the repository). -/
def charListLe : List Char → List Char → Bool
  | [], _ => true
  | _ :: _, [] => false
  | a :: as, b :: bs => if a = b then charListLe as bs else decide (a < b)

/-! ## Data model

Field names follow the database rows (`supabase/migrations/...sql`) as the
TypeScript code reads them: books have `id`, `title`, `author`,
`description`, `genre`, `published_year`, `added_by`, `created_at`; reviews
have `id`, `book_id`, `user_id`, `rating`, `review_text`, `created_at`.
Identifiers and timestamps are embedded as numbers. -/

structure Review where
  id : Nat
  book_id : Nat
  user_id : Nat
  rating : Int
  review_text : List Char
  created_at : Int
deriving DecidableEq

structure Book where
  id : Nat
  title : List Char
  author : List Char
  description : List Char
  genre : List Char
  published_year : Int
  added_by : Option Nat
  created_at : Int
deriving DecidableEq

/-- A book row together with the two derived aggregate fields, exactly the
spread `{ ...book, averageRating, reviewCount }` built in `fetchBooks`
(src/pages/Index.tsx) and `fetchProfileData` (src/pages/Profile.tsx). -/
structure BookAgg extends Book where
  averageRating : ℚ
  reviewCount : Nat

/-! ## Aggregation engine (src/pages/Index.tsx lines 67-78, identical code in
src/pages/Profile.tsx lines 85-96) -/

/-- The per-book review selection `reviewsData.filter((r) => r.book_id === book.id)`. -/
def reviewsFor (reviews : List Review) (bookId : Nat) : List Review :=
  reviews.filter (fun r => r.book_id == bookId)

/-- One step of the `booksData.map((book) => ...)` body: the average is
`reduce((sum, r) => sum + r.rating, 0) / length` when there is at least one
review for the book and `0` otherwise. -/
def bookWithRating (reviews : List Review) (book : Book) : BookAgg :=
  let bookReviews := reviewsFor reviews book.id
  let avgRating : ℚ :=
    if bookReviews.length > 0 then
      (bookReviews.foldl (fun sum r => sum + (r.rating : ℚ)) 0) / (bookReviews.length : ℚ)
    else 0
  { book with averageRating := avgRating, reviewCount := bookReviews.length }

/-- The aggregation `booksWithRatings` computed by `fetchBooks`. -/
def booksWithRatings (books : List Book) (reviews : List Review) : List BookAgg :=
  books.map (bookWithRating reviews)

/-- The ratings of the reviews that reference a given book, as the spec
describes the grouping. -/
def ratingsOf (reviews : List Review) (bookId : Nat) : List Int :=
  (reviewsFor reviews bookId).map (fun r => r.rating)

/-- The arithmetic mean as the spec words it: `sum(ratings)/count` when the
group is non-empty, `0` otherwise. -/
def arithmeticMean (l : List Int) : ℚ :=
  if l = [] then 0 else ((l.sum : ℚ)) / (l.length : ℚ)

/-! ## Filter / sort / paginate pipeline (src/pages/Index.tsx lines 92-132) -/

def ITEMS_PER_PAGE : Nat := 5

/-- The search predicate: case-insensitive substring match of the search
term against title or author. -/
def matchesSearch (term : List Char) (b : BookAgg) : Bool :=
  jsIncludes (jsToLower b.title) (jsToLower term) ||
  jsIncludes (jsToLower b.author) (jsToLower term)

/-- `if (searchTerm) { filtered = filtered.filter(...) }`: the empty string
is falsy, so an empty term passes everything. -/
def searchFilter (books : List BookAgg) (term : List Char) : List BookAgg :=
  if term = [] then books else books.filter (matchesSearch term)

/-- `if (selectedGenre !== "all") { filtered = filtered.filter(...) }`. -/
def genreFilter (books : List BookAgg) (genre : List Char) : List BookAgg :=
  if genre = "all".data then books else books.filter (fun b => b.genre == genre)

/-- The sort comparator of `filterAndSortBooks`, as the order relation
"`a` may come before `b`" (comparator result ≤ 0).  `rating`, `year` and the
default `recent` branch compare descending; `title` uses `localeCompare`
ascending. -/
def sortLe (sortBy : List Char) (a b : BookAgg) : Bool :=
  if sortBy = "rating".data then decide (b.averageRating ≤ a.averageRating)
  else if sortBy = "year".data then decide (b.published_year ≤ a.published_year)
  else if sortBy = "title".data then charListLe a.title b.title
  else decide (b.created_at ≤ a.created_at)

/-- The body of `filterAndSortBooks`: search filter, then genre filter, then
sort.  JavaScript `Array.prototype.sort` with a consistent comparator is
embedded as a stable merge sort on the comparator's order. -/
def filterAndSortBooks (books : List BookAgg) (term genre sortBy : List Char) :
    List BookAgg :=
  (genreFilter (searchFilter books term) genre).mergeSort (sortLe sortBy)

/-- `Math.ceil(filteredBooks.length / ITEMS_PER_PAGE)`, the ceiling of the
division embedded on naturals. -/
def totalPages (n : Nat) : Nat := (n + (ITEMS_PER_PAGE - 1)) / ITEMS_PER_PAGE

/-- JavaScript `Array.prototype.slice(start, stop)` for in-range indices. -/
def jsSlice {α : Type} (l : List α) (start stop : Nat) : List α :=
  (l.take stop).drop start

/-- `filteredBooks.slice((currentPage - 1) * ITEMS_PER_PAGE, currentPage * ITEMS_PER_PAGE)`. -/
def paginatedBooks (filtered : List BookAgg) (currentPage : Nat) : List BookAgg :=
  jsSlice filtered ((currentPage - 1) * ITEMS_PER_PAGE) (currentPage * ITEMS_PER_PAGE)

/-! ## View state machine (src/pages/Index.tsx lines 41-47 and 92-125)

The `useEffect` with dependencies `[books, searchTerm, selectedGenre,
sortBy]` reruns `filterAndSortBooks`, which stores the filtered list and
resets `currentPage` to 1; the page buttons call `setCurrentPage` alone. -/

structure ViewState where
  books : List BookAgg
  searchTerm : List Char
  selectedGenre : List Char
  sortBy : List Char
  filteredBooks : List BookAgg
  currentPage : Nat

inductive ViewEvent where
  | setSearchTerm (term : List Char)
  | setSelectedGenre (genre : List Char)
  | setSortBy (key : List Char)
  | setCurrentPage (page : Nat)
  | setBooks (books : List BookAgg)

/-- The effect body: recompute `filteredBooks` and reset the page. -/
def recompute (s : ViewState) : ViewState :=
  { s with
    filteredBooks := filterAndSortBooks s.books s.searchTerm s.selectedGenre s.sortBy
    currentPage := 1 }

/-- One user interaction: the three filter/sort setters (and a books
refresh) trigger the effect; the pagination buttons set the page only. -/
def viewStep (s : ViewState) : ViewEvent → ViewState
  | .setSearchTerm t => recompute { s with searchTerm := t }
  | .setSelectedGenre g => recompute { s with selectedGenre := g }
  | .setSortBy k => recompute { s with sortBy := k }
  | .setBooks bs => recompute { s with books := bs }
  | .setCurrentPage p => { s with currentPage := p }

/-! ## Review lifecycle (BookDetails page, src/unnamed/part_001)

`handleSubmitReview` is embedded as a pure function of the component state
(session user, route book id, the `rating`/`reviewText`/`editingReview`
state) plus a flag saying whether the issued store call succeeds.  It
returns the outcome surfaced by the toasts, the list of mutating store calls
issued, and the component state after the handler finishes (the read-only
refetch on success is not a mutating call and is not recorded). -/

inductive StoreCall where
  | insertReview (book_id user_id : Nat) (rating : Int) (text : List Char)
  | updateReview (id : Nat) (rating : Int) (text : List Char)
  | deleteReviewCall (id : Nat)
deriving DecidableEq

inductive SubmitOutcome where
  | authenticationRequired
  | validationError
  | storeError
  | success
deriving DecidableEq

structure ReviewFormState where
  user : Option Nat
  bookId : Nat
  rating : Int
  reviewText : List Char
  editingReview : Option Nat
  isSubmitting : Bool
deriving DecidableEq

/-- The `zod` schema `reviewSchema` (src/unnamed/part_001 lines 14-17):
`rating` between 1 and 5 inclusive, and the trimmed review text of length
at least 10 and at most 1000 (zod `min`/`max` are inclusive bounds applied
after the `.trim()` transform). -/
def validateReview (rating : Int) (reviewText : List Char) : Bool :=
  decide (1 ≤ rating) && decide (rating ≤ 5) &&
  decide (10 ≤ (jsTrim reviewText).length) && decide ((jsTrim reviewText).length ≤ 1000)

structure SubmitResult where
  outcome : SubmitOutcome
  storeCalls : List StoreCall
  final : ReviewFormState
deriving DecidableEq

/-- `handleSubmitReview` (src/unnamed/part_001 lines 86-156).  Without a
session it toasts and navigates to the sign-in page, touching nothing else.
Otherwise it parses the draft against `reviewSchema`; a `ZodError` is shown
as a validation toast before any store call, leaving the draft state as it
was (only `isSubmitting`, set in the `try`/`finally`, ends at `false`).  A
valid draft issues an update when `editingReview` is bound and an insert
otherwise; on store success the draft is cleared, on store failure it is
kept. -/
def handleSubmitReview (storeOk : Bool) (s : ReviewFormState) : SubmitResult :=
  match s.user with
  | none => ⟨.authenticationRequired, [], s⟩
  | some uid =>
    if validateReview s.rating s.reviewText then
      let text := jsTrim s.reviewText
      let call := match s.editingReview with
        | some rid => StoreCall.updateReview rid s.rating text
        | none => StoreCall.insertReview s.bookId uid s.rating text
      if storeOk then
        ⟨.success, [call],
          { s with editingReview := none, rating := 5, reviewText := [], isSubmitting := false }⟩
      else
        ⟨.storeError, [call], { s with isSubmitting := false }⟩
    else ⟨.validationError, [], { s with isSubmitting := false }⟩

/-- The `disabled` expression of the submit button
(src/unnamed/part_001 line 341): `isSubmitting || !reviewText.trim()`. -/
def submitButtonDisabled (isSubmitting : Bool) (reviewText : List Char) : Bool :=
  isSubmitting || decide (jsTrim reviewText = [])

/-! ## Review deletion (src/unnamed/part_001 lines 165-182 and 390-407) -/

inductive StoreErr where
  | authorizationDenied
  | notFound
deriving DecidableEq

/-- Modelled from the spec: the Data Store collaborator's
`deleteReview(id)`; the store itself (Supabase/PostgREST) is not part of the
repository, only its row-level policy DDL is (`"Users can delete their own
reviews" ... USING (auth.uid() = user_id)`).  Per spec sections 4.3, 6 and 7
the store enforces that only the review's author may delete it and rejects
a non-author's attempt with an authorization denial, so the review set is
left unchanged in that case. -/
def storeDeleteReview (caller : Nat) (reviews : List Review) (rid : Nat) :
    Except StoreErr (List Review) :=
  match reviews.find? (fun r => r.id == rid) with
  | none => .error .notFound
  | some r =>
    if r.user_id == caller then .ok (reviews.filter (fun x => !(x.id == rid)))
    else .error .authorizationDenied

structure DeleteResult where
  error : Option StoreErr
  reviews : List Review
deriving DecidableEq

/-- `handleDeleteReview` (src/unnamed/part_001 lines 165-182): it issues the
store delete; a store error is surfaced as an error toast, and the reviews
the page then lists are the store's rows (refetched on success, unchanged on
failure). -/
def handleDeleteReview (caller : Nat) (reviews : List Review) (rid : Nat) :
    DeleteResult :=
  match storeDeleteReview caller reviews rid with
  | .ok l => ⟨none, l⟩
  | .error e => ⟨some e, reviews⟩

/-- The render guard on the edit/delete controls of a review row
(src/unnamed/part_001 line 390): `user && user.id === review.user_id`. -/
def deleteControlVisible (user : Option Nat) (r : Review) : Bool :=
  match user with
  | some uid => uid == r.user_id
  | none => false

/-! ## Rating presentation -/

/-- JavaScript `Number.prototype.toFixed(1)` for a non-negative value: the
multiple of 1/10 nearest to the value, ties toward the larger, printed with
one digit after the point. -/
def fmtFixed1 (q : ℚ) : List Char :=
  let n : Nat := (⌊q * 10 + 1 / 2⌋).toNat
  (Nat.repr (n / 10)).data ++ ['.'] ++ (Nat.repr (n % 10)).data

/-- The rating text of a catalog card
(src/components/BookCard.tsx lines 44-46):
`averageRating > 0 ? averageRating.toFixed(1) : "No ratings"`. -/
def bookCardRating (averageRating : ℚ) : List Char :=
  if averageRating > 0 then fmtFixed1 averageRating else "No ratings".data

/-- The `averageRating` string of the book-details page
(src/unnamed/part_001 lines 205-208):
`reviews.length > 0 ? (sum / length).toFixed(1) : "0.0"`. -/
def bookDetailsAverageRating (reviews : List Review) : List Char :=
  if reviews.length > 0 then
    fmtFixed1 ((reviews.foldl (fun sum r => sum + (r.rating : ℚ)) 0) / (reviews.length : ℚ))
  else "0.0".data

/-! ## Helper lemmas -/

theorem foldl_rating_sum (l : List Review) (init : ℚ) :
    l.foldl (fun sum r => sum + (r.rating : ℚ)) init
      = init + (((l.map (fun r => r.rating)).sum : ℤ) : ℚ) := by
  induction l generalizing init with
  | nil => simp
  | cons r t ih =>
    rw [List.foldl_cons, ih, List.map_cons, List.sum_cons]
    push_cast
    ring

theorem bookWithRating_eq (reviews : List Review) (b : Book) :
    bookWithRating reviews b =
      { toBook := b
        averageRating := arithmeticMean (ratingsOf reviews b.id)
        reviewCount := (reviewsFor reviews b.id).length } := by
  unfold bookWithRating arithmeticMean ratingsOf
  cases h : reviewsFor reviews b.id with
  | nil => simp [h]
  | cons r t => simp [h, foldl_rating_sum]

/-! ## Claim theorems -/

/-- C1: for every list of books and list of reviews, the aggregation gives
each book an `averageRating` equal to the arithmetic mean of the ratings of
the reviews whose `book_id` references it (`0` when there are none) and a
`reviewCount` equal to the number of such reviews; a review whose `book_id`
matches no book in the input changes no aggregate. -/
theorem aggregation_correct (books : List Book) (reviews : List Review) :
    (booksWithRatings books reviews
      = books.map (fun b =>
          { toBook := b
            averageRating := arithmeticMean (ratingsOf reviews b.id)
            reviewCount := (reviewsFor reviews b.id).length }))
    ∧ ∀ r : Review, (∀ b ∈ books, b.id ≠ r.book_id) →
        booksWithRatings books (r :: reviews) = booksWithRatings books reviews := by
  constructor
  · exact List.map_congr_left (fun b _ => bookWithRating_eq reviews b)
  · intro r hr
    apply List.map_congr_left
    intro b hb
    have hfor : reviewsFor (r :: reviews) b.id = reviewsFor reviews b.id := by
      unfold reviewsFor
      rw [List.filter_cons_of_neg]
      simp only [beq_iff_eq]
      exact fun e => (hr b hb) e.symm
    simp only [bookWithRating, hfor]

def wBook : Book :=
  { id := 1, title := "Dune".data, author := "Frank Herbert".data,
    description := "A desert planet".data, genre := "SciFi".data,
    published_year := 1965, added_by := some 1, created_at := 100 }

def wReview4 : Review :=
  { id := 10, book_id := 1, user_id := 2, rating := 4,
    review_text := "really liked it".data, created_at := 200 }

def wReview5 : Review :=
  { id := 11, book_id := 1, user_id := 3, rating := 5,
    review_text := "quite a classic".data, created_at := 201 }

def wOrphan : Review :=
  { id := 12, book_id := 99, user_id := 2, rating := 1,
    review_text := "dangling review".data, created_at := 202 }

theorem aggregation_correct_witness :
    booksWithRatings [wBook] (wOrphan :: [wReview4, wReview5])
      = booksWithRatings [wBook] [wReview4, wReview5] :=
  (aggregation_correct [wBook] [wReview4, wReview5]).2 wOrphan (by decide)

/-- C10: the aggregation output has the same length and order as the input
book list, and each output record carries the corresponding input book
unchanged, only adding the `averageRating` and `reviewCount` fields. -/
theorem aggregation_preserves_books (books : List Book) (reviews : List Review) :
    (booksWithRatings books reviews).map (fun b => b.toBook) = books
    ∧ (booksWithRatings books reviews).length = books.length := by
  constructor
  · unfold booksWithRatings
    rw [List.map_map]
    have hcomp : (fun b : BookAgg => b.toBook) ∘ bookWithRating reviews
        = fun b : Book => b := by
      funext b; rfl
    rw [hcomp]
    exact List.map_id' books
  · unfold booksWithRatings
    exact List.length_map books (bookWithRating reviews)

/-- C2: `totalPages` is the ceiling of `filteredCount / 5` (it is the least
number of pages covering the collection); a valid page `p` with
`1 ≤ p ≤ totalPages` holds exactly `min 5 (count - (p-1)*5)` items; any page
beyond `totalPages` yields the empty slice. -/
theorem pagination_correct (l : List BookAgg) (p : Nat) :
    (l.length ≤ ITEMS_PER_PAGE * totalPages l.length
      ∧ ∀ t : Nat, l.length ≤ ITEMS_PER_PAGE * t → totalPages l.length ≤ t)
    ∧ (1 ≤ p → p ≤ totalPages l.length →
        (paginatedBooks l p).length
          = min ITEMS_PER_PAGE (l.length - (p - 1) * ITEMS_PER_PAGE))
    ∧ (totalPages l.length < p → paginatedBooks l p = []) := by
  have hlen : (paginatedBooks l p).length
      = min (p * ITEMS_PER_PAGE) l.length - (p - 1) * ITEMS_PER_PAGE := by
    unfold paginatedBooks jsSlice
    rw [List.length_drop, List.length_take]
  refine ⟨⟨?_, ?_⟩, ?_, ?_⟩
  · unfold totalPages ITEMS_PER_PAGE
    omega
  · intro t ht
    unfold totalPages ITEMS_PER_PAGE at *
    omega
  · intro h1 hp
    rw [hlen]
    unfold totalPages ITEMS_PER_PAGE at *
    omega
  · intro hp
    unfold paginatedBooks jsSlice
    apply List.drop_eq_nil_of_le
    rw [List.length_take]
    unfold totalPages ITEMS_PER_PAGE at *
    omega

def wBookAgg : BookAgg := { wBook with averageRating := 0, reviewCount := 0 }

def wSevenBooks : List BookAgg := List.replicate 7 wBookAgg

theorem pagination_correct_witness :
    (paginatedBooks wSevenBooks 2).length
      = min ITEMS_PER_PAGE (wSevenBooks.length - (2 - 1) * ITEMS_PER_PAGE) :=
  (pagination_correct wSevenBooks 2).2.1 (by decide) (by decide)

/-- C9: each change to the search term, the genre selection or the sort key
leaves the view on page 1, while a page change alone leaves the filtered and
sorted collection (and the filter/sort inputs) untouched. -/
theorem page_reset_on_filter_change (s : ViewState) (t g k : List Char) (p : Nat) :
    (viewStep s (.setSearchTerm t)).currentPage = 1
    ∧ (viewStep s (.setSelectedGenre g)).currentPage = 1
    ∧ (viewStep s (.setSortBy k)).currentPage = 1
    ∧ (viewStep s (.setCurrentPage p)).filteredBooks = s.filteredBooks
    ∧ (viewStep s (.setCurrentPage p)).searchTerm = s.searchTerm
    ∧ (viewStep s (.setCurrentPage p)).selectedGenre = s.selectedGenre
    ∧ (viewStep s (.setCurrentPage p)).sortBy = s.sortBy :=
  ⟨rfl, rfl, rfl, rfl, rfl, rfl, rfl⟩

/-- C3: every book surviving the pipeline matches the non-empty search term
case-insensitively in its title or author and carries the selected genre
when the selection is not the "all" sentinel; the empty term and the
sentinel each pass every book through their filter stage. -/
theorem filter_correct (books : List BookAgg) (term genre sortBy : List Char) :
    (∀ b ∈ filterAndSortBooks books term genre sortBy,
        (term ≠ [] →
          jsToLower term <:+: jsToLower b.title
            ∨ jsToLower term <:+: jsToLower b.author)
        ∧ (genre ≠ "all".data → b.genre = genre))
    ∧ searchFilter books [] = books
    ∧ genreFilter books "all".data = books := by
  refine ⟨?_, by simp [searchFilter], by simp [genreFilter]⟩
  intro b hb
  rw [filterAndSortBooks, List.mem_mergeSort] at hb
  have hb1 : b ∈ searchFilter books term := by
    unfold genreFilter at hb
    by_cases hg : genre = "all".data
    · rwa [if_pos hg] at hb
    · rw [if_neg hg] at hb
      exact (List.mem_filter.mp hb).1
  constructor
  · intro hterm
    unfold searchFilter at hb1
    rw [if_neg hterm] at hb1
    have hm := (List.mem_filter.mp hb1).2
    unfold matchesSearch jsIncludes at hm
    rw [Bool.or_eq_true] at hm
    rcases hm with h | h
    · exact Or.inl (of_decide_eq_true h)
    · exact Or.inr (of_decide_eq_true h)
  · intro hg
    unfold genreFilter at hb
    rw [if_neg hg] at hb
    exact eq_of_beq (List.mem_filter.mp hb).2

theorem filter_correct_witness :
    ("un".data ≠ [] →
      jsToLower "un".data <:+: jsToLower wBookAgg.title
        ∨ jsToLower "un".data <:+: jsToLower wBookAgg.author)
    ∧ ("SciFi".data ≠ "all".data → wBookAgg.genre = "SciFi".data) :=
  (filter_correct [wBookAgg] "un".data "SciFi".data "title".data).1 wBookAgg
    (List.mem_mergeSort.mpr (List.Mem.head []))

/-! ## Order lemmas for the sort comparators -/

theorem charListLe_total : ∀ a b : List Char, (charListLe a b || charListLe b a) = true := by
  intro a
  induction a with
  | nil => intro b; simp [charListLe]
  | cons x xs ih =>
    intro b
    cases b with
    | nil => simp [charListLe]
    | cons y ys =>
      by_cases h : x = y
      · subst h
        simpa [charListLe] using ih ys
      · have h2 : ¬ y = x := fun e => h e.symm
        rcases lt_or_gt_of_ne h with hlt | hgt
        · simp [charListLe, h, h2, hlt]
        · simp [charListLe, h, h2, hgt]

theorem charListLe_trans :
    ∀ a b c : List Char, charListLe a b = true → charListLe b c = true →
      charListLe a c = true := by
  intro a
  induction a with
  | nil => intro b c _ _; simp [charListLe]
  | cons x xs ih =>
    intro b c h1 h2
    cases b with
    | nil => simp [charListLe] at h1
    | cons y ys =>
      cases c with
      | nil => simp [charListLe] at h2
      | cons z zs =>
        simp only [charListLe] at h1 h2 ⊢
        by_cases hxy : x = y
        · subst hxy
          rw [if_pos rfl] at h1
          by_cases hxz : x = z
          · subst hxz
            rw [if_pos rfl] at h2 ⊢
            exact ih ys zs h1 h2
          · rw [if_neg hxz] at h2 ⊢
            exact h2
        · rw [if_neg hxy] at h1
          have hlt1 : x < y := of_decide_eq_true h1
          by_cases hyz : y = z
          · subst hyz
            rw [if_neg hxy]
            exact h1
          · rw [if_neg hyz] at h2
            have hlt2 : y < z := of_decide_eq_true h2
            have hxz : x < z := lt_trans hlt1 hlt2
            rw [if_neg (ne_of_lt hxz)]
            exact decide_eq_true hxz

theorem sortLe_title_eq (a b : BookAgg) :
    sortLe "title".data a b = charListLe a.title b.title := rfl

theorem sortLe_rating_eq (a b : BookAgg) :
    sortLe "rating".data a b = decide (b.averageRating ≤ a.averageRating) := rfl

theorem sortLe_year_eq (a b : BookAgg) :
    sortLe "year".data a b = decide (b.published_year ≤ a.published_year) := rfl

theorem sortLe_recent_eq (a b : BookAgg) :
    sortLe "recent".data a b = decide (b.created_at ≤ a.created_at) := rfl

/-- C4: sorting with key `title` yields titles in non-decreasing
(lexicographic) order, and the keys `rating`, `year` and `recent` yield
sequences non-increasing on `averageRating`, `published_year` and
`created_at` respectively. -/
theorem sort_correct (books : List BookAgg) (term genre : List Char) :
    List.Pairwise (fun a b : BookAgg => charListLe a.title b.title = true)
        (filterAndSortBooks books term genre "title".data)
    ∧ List.Pairwise (fun a b : BookAgg => b.averageRating ≤ a.averageRating)
        (filterAndSortBooks books term genre "rating".data)
    ∧ List.Pairwise (fun a b : BookAgg => b.published_year ≤ a.published_year)
        (filterAndSortBooks books term genre "year".data)
    ∧ List.Pairwise (fun a b : BookAgg => b.created_at ≤ a.created_at)
        (filterAndSortBooks books term genre "recent".data) := by
  refine ⟨?_, ?_, ?_, ?_⟩
  · have htrans : ∀ a b c : BookAgg, sortLe "title".data a b = true →
        sortLe "title".data b c = true → sortLe "title".data a c = true := by
      intro a b c h1 h2
      rw [sortLe_title_eq] at h1 h2 ⊢
      exact charListLe_trans _ _ _ h1 h2
    have htot : ∀ a b : BookAgg,
        (sortLe "title".data a b || sortLe "title".data b a) = true := by
      intro a b
      rw [sortLe_title_eq, sortLe_title_eq]
      exact charListLe_total _ _
    exact (List.sorted_mergeSort htrans htot _).imp
      (fun h => by rwa [sortLe_title_eq] at h)
  · have htrans : ∀ a b c : BookAgg, sortLe "rating".data a b = true →
        sortLe "rating".data b c = true → sortLe "rating".data a c = true := by
      intro a b c h1 h2
      rw [sortLe_rating_eq] at h1 h2 ⊢
      exact decide_eq_true (le_trans (of_decide_eq_true h2) (of_decide_eq_true h1))
    have htot : ∀ a b : BookAgg,
        (sortLe "rating".data a b || sortLe "rating".data b a) = true := by
      intro a b
      rw [sortLe_rating_eq, sortLe_rating_eq, Bool.or_eq_true]
      rcases le_total a.averageRating b.averageRating with h | h
      · exact Or.inr (decide_eq_true h)
      · exact Or.inl (decide_eq_true h)
    exact (List.sorted_mergeSort htrans htot _).imp
      (fun h => by rw [sortLe_rating_eq] at h; exact of_decide_eq_true h)
  · have htrans : ∀ a b c : BookAgg, sortLe "year".data a b = true →
        sortLe "year".data b c = true → sortLe "year".data a c = true := by
      intro a b c h1 h2
      rw [sortLe_year_eq] at h1 h2 ⊢
      exact decide_eq_true (le_trans (of_decide_eq_true h2) (of_decide_eq_true h1))
    have htot : ∀ a b : BookAgg,
        (sortLe "year".data a b || sortLe "year".data b a) = true := by
      intro a b
      rw [sortLe_year_eq, sortLe_year_eq, Bool.or_eq_true]
      rcases le_total a.published_year b.published_year with h | h
      · exact Or.inr (decide_eq_true h)
      · exact Or.inl (decide_eq_true h)
    exact (List.sorted_mergeSort htrans htot _).imp
      (fun h => by rw [sortLe_year_eq] at h; exact of_decide_eq_true h)
  · have htrans : ∀ a b c : BookAgg, sortLe "recent".data a b = true →
        sortLe "recent".data b c = true → sortLe "recent".data a c = true := by
      intro a b c h1 h2
      rw [sortLe_recent_eq] at h1 h2 ⊢
      exact decide_eq_true (le_trans (of_decide_eq_true h2) (of_decide_eq_true h1))
    have htot : ∀ a b : BookAgg,
        (sortLe "recent".data a b || sortLe "recent".data b a) = true := by
      intro a b
      rw [sortLe_recent_eq, sortLe_recent_eq, Bool.or_eq_true]
      rcases le_total a.created_at b.created_at with h | h
      · exact Or.inr (decide_eq_true h)
      · exact Or.inl (decide_eq_true h)
    exact (List.sorted_mergeSort htrans htot _).imp
      (fun h => by rw [sortLe_recent_eq] at h; exact of_decide_eq_true h)

/-- C5: submit validates `rating ∈ [1,5]` and trimmed text length
`∈ [10,1000]`; when validation fails the outcome is the validation error,
no store call is made, and the composing draft (rating, text, edit binding)
is preserved. -/
theorem submit_validation (storeOk : Bool) (s : ReviewFormState) (uid : Nat)
    (hu : s.user = some uid)
    (hbad : validateReview s.rating s.reviewText = false) :
    ((handleSubmitReview storeOk s).outcome = SubmitOutcome.validationError
      ∧ (handleSubmitReview storeOk s).storeCalls = []
      ∧ (handleSubmitReview storeOk s).final.rating = s.rating
      ∧ (handleSubmitReview storeOk s).final.reviewText = s.reviewText
      ∧ (handleSubmitReview storeOk s).final.editingReview = s.editingReview)
    ∧ ∀ (r : Int) (t : List Char),
        validateReview r t = true ↔
          (1 ≤ r ∧ r ≤ 5 ∧ 10 ≤ (jsTrim t).length ∧ (jsTrim t).length ≤ 1000) := by
  constructor
  · simp only [handleSubmitReview, hu, hbad]
    exact ⟨rfl, rfl, rfl, rfl, rfl⟩
  · intro r t
    unfold validateReview
    simp [and_assoc]

def wShortDraft : ReviewFormState :=
  { user := some 4, bookId := 1, rating := 5, reviewText := "short".data,
    editingReview := none, isSubmitting := false }

theorem submit_validation_witness :
    (handleSubmitReview true wShortDraft).outcome = SubmitOutcome.validationError
    ∧ (handleSubmitReview true wShortDraft).storeCalls = [] := by
  have h := submit_validation true wShortDraft 4 rfl (by decide)
  exact ⟨h.1.1, h.1.2.1⟩

def wBusyState : ReviewFormState :=
  { user := some 4, bookId := 1, rating := 5,
    reviewText := "an excellent read".data, editingReview := none,
    isSubmitting := true }

/-- C6 counterexample: with a mutation already in flight
(`isSubmitting = true`), a second submit is not rejected by any guard in the
handler — it still issues a store call. -/
theorem no_explicit_submit_guard :
    wBusyState.isSubmitting = true
    ∧ (handleSubmitReview true wBusyState).storeCalls ≠ [] :=
  ⟨rfl, by decide⟩

/-- C6 amended: the handlers contain no mutual-exclusion guard — a submit
issues the same store calls with the same outcome whatever the value of
`isSubmitting` — and the rejection of a second submit exists only in the
presentation layer, where the submit control is disabled whenever
`isSubmitting` is true. -/
theorem submit_mutex_only_in_presentation :
    (∀ (storeOk : Bool) (s : ReviewFormState) (b : Bool),
        (handleSubmitReview storeOk { s with isSubmitting := b }).storeCalls
          = (handleSubmitReview storeOk s).storeCalls
        ∧ (handleSubmitReview storeOk { s with isSubmitting := b }).outcome
          = (handleSubmitReview storeOk s).outcome)
    ∧ ∀ t : List Char, submitButtonDisabled true t = true := by
  constructor
  · intro storeOk s b
    obtain ⟨u, bid, rat, txt, ed, sub⟩ := s
    cases u with
    | none => exact ⟨rfl, rfl⟩
    | some uid =>
      by_cases hv : validateReview rat txt = true
      · cases ed <;> cases storeOk <;> simp [handleSubmitReview, hv]
      · cases ed <;> cases storeOk <;> simp [handleSubmitReview, hv]
  · intro t
    rfl

/-- C7: a review delete goes through only for the review's author: a
non-author caller gets an authorization denial from the store, the review
set is unchanged and the review remains listed, the page-level delete
control is not even shown to a non-author, and whenever a delete succeeds
the found review's author is the caller. -/
theorem delete_requires_author (a : Nat) (reviews : List Review) (rid : Nat)
    (r : Review) (hfind : reviews.find? (fun x => x.id == rid) = some r)
    (hauth : r.user_id ≠ a) :
    (handleDeleteReview a reviews rid).error = some StoreErr.authorizationDenied
    ∧ (handleDeleteReview a reviews rid).reviews = reviews
    ∧ r ∈ (handleDeleteReview a reviews rid).reviews
    ∧ deleteControlVisible (some a) r = false
    ∧ ∀ (a2 : Nat) (rws : List Review) (rid2 : Nat),
        (handleDeleteReview a2 rws rid2).error = none →
        ∃ r2, rws.find? (fun x => x.id == rid2) = some r2 ∧ r2.user_id = a2 := by
  have hne : (r.user_id == a) = false := beq_eq_false_iff_ne.mpr hauth
  have hmain : handleDeleteReview a reviews rid
      = ⟨some StoreErr.authorizationDenied, reviews⟩ := by
    simp only [handleDeleteReview, storeDeleteReview, hfind, hne]
    rfl
  refine ⟨by rw [hmain], by rw [hmain], ?_, ?_, ?_⟩
  · rw [hmain]
    exact List.mem_of_find?_eq_some hfind
  · show (a == r.user_id) = false
    exact beq_eq_false_iff_ne.mpr fun e => hauth e.symm
  · intro a2 rws rid2 hok
    unfold handleDeleteReview storeDeleteReview at hok
    cases hf : rws.find? (fun x => x.id == rid2) with
    | none => simp [hf] at hok
    | some r2 =>
      simp only [hf] at hok
      by_cases he : (r2.user_id == a2) = true
      · exact ⟨r2, rfl, eq_of_beq he⟩
      · rw [Bool.not_eq_true] at he
        simp [he] at hok

def wReviewByB : Review :=
  { id := 21, book_id := 1, user_id := 8, rating := 3,
    review_text := "it was just fine".data, created_at := 300 }

theorem delete_requires_author_witness :
    (handleDeleteReview 7 [wReviewByB] 21).error = some StoreErr.authorizationDenied
    ∧ (handleDeleteReview 7 [wReviewByB] 21).reviews = [wReviewByB] := by
  have h := delete_requires_author 7 [wReviewByB] 21 wReviewByB (by decide) (by decide)
  exact ⟨h.1, h.2.1⟩

/-- C8 counterexample: the book-details page of the repository renders the
rating of an empty review set as "0.0", not "No ratings". -/
theorem empty_rating_rendered_zero :
    bookDetailsAverageRating [] = "0.0".data
    ∧ "0.0".data ≠ "No ratings".data :=
  ⟨rfl, by decide⟩

theorem length_le_sum_of_one_le (l : List Int) (h : ∀ x ∈ l, 1 ≤ x) :
    (l.length : Int) ≤ l.sum := by
  induction l with
  | nil => simp
  | cons x t ih =>
    have hx := h x (List.mem_cons_self x t)
    have ht := ih (fun y hy => h y (List.mem_cons_of_mem x hy))
    simp only [List.length_cons, List.sum_cons]
    push_cast
    omega

/-- C8 amended: for a book whose review set is empty the catalog card
renders "No ratings" (never "0.0"), and for a non-empty review set whose
ratings are at least 1 (the database check constraint) it renders the
arithmetic mean formatted to one decimal; the book-details page, however,
renders "0.0" for an empty review set. -/
theorem rating_display (b : Book) (reviews : List Review)
    (hvalid : ∀ r ∈ reviews, 1 ≤ r.rating) :
    (reviewsFor reviews b.id = [] →
      bookCardRating (bookWithRating reviews b).averageRating = "No ratings".data
      ∧ bookCardRating (bookWithRating reviews b).averageRating ≠ "0.0".data)
    ∧ (reviewsFor reviews b.id ≠ [] →
      bookCardRating (bookWithRating reviews b).averageRating
        = fmtFixed1 (arithmeticMean (ratingsOf reviews b.id)))
    ∧ bookDetailsAverageRating [] = "0.0".data := by
  have havg : (bookWithRating reviews b).averageRating
      = arithmeticMean (ratingsOf reviews b.id) := by
    rw [bookWithRating_eq]
  refine ⟨?_, ?_, rfl⟩
  · intro hempty
    have hzero : arithmeticMean (ratingsOf reviews b.id) = 0 := by
      unfold arithmeticMean ratingsOf
      rw [hempty]
      simp
    rw [havg, hzero]
    constructor
    · unfold bookCardRating
      rw [if_neg (lt_irrefl (0 : ℚ))]
    · unfold bookCardRating
      rw [if_neg (lt_irrefl (0 : ℚ))]
      decide
  · intro hne
    have hlen : 0 < (ratingsOf reviews b.id).length := by
      unfold ratingsOf
      rw [List.length_map]
      exact List.length_pos.mpr hne
    have hratings : ∀ x ∈ ratingsOf reviews b.id, 1 ≤ x := by
      intro x hx
      rcases List.mem_map.mp hx with ⟨r, hr, hxr⟩
      have hrmem : r ∈ reviews := (List.mem_filter.mp hr).1
      rw [← hxr]
      exact hvalid r hrmem
    have hsum : (0 : ℚ) < ((ratingsOf reviews b.id).sum : ℚ) := by
      have h1 := length_le_sum_of_one_le (ratingsOf reviews b.id) hratings
      have h2 : (0 : Int) < ((ratingsOf reviews b.id).length : Int) := by
        exact_mod_cast hlen
      have : (0 : Int) < (ratingsOf reviews b.id).sum := lt_of_lt_of_le h2 h1
      exact_mod_cast this
    have hpos : 0 < arithmeticMean (ratingsOf reviews b.id) := by
      unfold arithmeticMean
      rw [if_neg (by simpa using List.length_pos.mp hlen)]
      apply div_pos hsum
      exact_mod_cast hlen
    rw [havg]
    unfold bookCardRating
    rw [if_pos hpos]

theorem rating_display_witness :
    reviewsFor [wReview4, wReview5] wBook.id ≠ []
    ∧ bookCardRating (bookWithRating [wReview4, wReview5] wBook).averageRating
        = fmtFixed1 (arithmeticMean (ratingsOf [wReview4, wReview5] wBook.id)) :=
  ⟨by decide,
    (rating_display wBook [wReview4, wReview5] (by decide)).2.1 (by decide)⟩
